import Mathlib

/-
Verification of the GuardDuty filter finding-criteria codec
(resource_aws_guardduty_filter: criteriaMap, conditionAllowedForCriterion,
serializeFindingCriteria, conditionValueToInt, conditionValueToStrings,
flattenFindingCriteria, flattenIntCondition, flattenStringCondition).

Modelling choices:
- A Criterion is the user-facing record {field, condition, values}; the
  condition strings of the schema become the enumeration Cond.
- guardduty.Condition becomes the structure Condition; a nil string slice and
  a nil Int64 pointer become [] and none respectively.
- The Go map map[string]*guardduty.Condition becomes an association list
  (List (String × Condition)) with map semantics (mapGet / mapSet); claims
  about the map's unspecified iteration order are stated over arbitrary
  association lists (equivalently, arbitrary permutations of the entries).
- serializeFindingCriteria iterates the criterion set's List(); that list is
  the List Criterion input here.
- Go runtime panics (indexing an empty slice) are modelled by the
  GoResult.panicked outcome; returned errors carry exactly the data the
  source interpolates into its error messages.
- strconv.ParseInt(s, 10, 64) becomes parseInt64 (optional sign, ASCII
  digits, 64-bit range check); strconv.FormatInt(v, 10) becomes formatInt.
-/

set_option maxHeartbeats 1000000

namespace GuardDuty

/-- The six condition strings accepted by the schema's "condition" attribute. -/
inductive Cond
  | equals
  | not_equals
  | greater_than
  | greater_than_or_equal
  | less_than
  | less_than_or_equal
deriving DecidableEq

/-- A user-facing criterion block: {field, condition, values}. -/
structure Criterion where
  field : String
  condition : Cond
  values : List String
deriving DecidableEq

/-- guardduty.Condition: at most one value per operator attribute. A nil/empty
string slice is []; a nil *int64 is none. -/
structure Condition where
  Equals : List String := []
  NotEquals : List String := []
  GreaterThan : Option Int := none
  GreaterThanOrEqual : Option Int := none
  LessThan : Option Int := none
  LessThanOrEqual : Option Int := none
deriving DecidableEq

/-- The entries of the criteriaMap() map literal, in source order. -/
def criteriaMapList : List (String × List Cond) := [
  ("confidence", [.equals, .not_equals]),
  ("id", [.equals, .not_equals]),
  ("account_id", [.equals, .not_equals]),
  ("region", [.equals, .not_equals]),
  ("resource.accessKeyDetails.accessKeyId", [.equals, .not_equals]),
  ("resource.accessKeyDetails.principalId", [.equals, .not_equals]),
  ("resource.accessKeyDetails.userName", [.equals, .not_equals]),
  ("resource.accessKeyDetails.userType", [.equals, .not_equals]),
  ("resource.instanceDetails.iamInstanceProfile.id", [.equals, .not_equals]),
  ("resource.instanceDetails.imageId", [.equals, .not_equals]),
  ("resource.instanceDetails.instanceId", [.equals, .not_equals]),
  ("resource.instanceDetails.networkInterfaces.ipv6Addresses", [.equals, .not_equals]),
  ("resource.instanceDetails.networkInterfaces.privateIpAddresses.privateIpAddress", [.equals, .not_equals]),
  ("resource.instanceDetails.networkInterfaces.publicDnsName", [.equals, .not_equals]),
  ("resource.instanceDetails.networkInterfaces.publicIp", [.equals, .not_equals]),
  ("resource.instanceDetails.networkInterfaces.securityGroups.groupId", [.equals, .not_equals]),
  ("resource.instanceDetails.networkInterfaces.securityGroups.groupName", [.equals, .not_equals]),
  ("resource.instanceDetails.networkInterfaces.subnetId", [.equals, .not_equals]),
  ("resource.instanceDetails.networkInterfaces.vpcId", [.equals, .not_equals]),
  ("resource.instanceDetails.tags.key", [.equals, .not_equals]),
  ("resource.instanceDetails.tags.value", [.equals, .not_equals]),
  ("resource.resourceType", [.equals, .not_equals]),
  ("service.action.actionType", [.equals, .not_equals]),
  ("service.action.awsApiCallAction.api", [.equals, .not_equals]),
  ("service.action.awsApiCallAction.callerType", [.equals, .not_equals]),
  ("service.action.awsApiCallAction.remoteIpDetails.city.cityName", [.equals, .not_equals]),
  ("service.action.awsApiCallAction.remoteIpDetails.country.countryName", [.equals, .not_equals]),
  ("service.action.awsApiCallAction.remoteIpDetails.ipAddressV4", [.equals, .not_equals]),
  ("service.action.awsApiCallAction.remoteIpDetails.organization.asn", [.equals, .not_equals]),
  ("service.action.awsApiCallAction.remoteIpDetails.organization.asnOrg", [.equals, .not_equals]),
  ("service.action.awsApiCallAction.serviceName", [.equals, .not_equals]),
  ("service.action.dnsRequestAction.domain", [.equals, .not_equals]),
  ("service.action.networkConnectionAction.blocked", [.equals, .not_equals]),
  ("service.action.networkConnectionAction.connectionDirection", [.equals, .not_equals]),
  ("service.action.networkConnectionAction.localPortDetails.port", [.equals, .not_equals]),
  ("service.action.networkConnectionAction.protocol", [.equals, .not_equals]),
  ("service.action.networkConnectionAction.remoteIpDetails.city.cityName", [.equals, .not_equals]),
  ("service.action.networkConnectionAction.remoteIpDetails.country.countryName", [.equals, .not_equals]),
  ("service.action.networkConnectionAction.remoteIpDetails.ipAddressV4", [.equals, .not_equals]),
  ("service.action.networkConnectionAction.remoteIpDetails.organization.asn", [.equals, .not_equals]),
  ("service.action.networkConnectionAction.remoteIpDetails.organization.asnOrg", [.equals, .not_equals]),
  ("service.action.networkConnectionAction.remotePortDetails.port", [.equals, .not_equals]),
  ("service.additionalInfo.threatListName", [.equals, .not_equals]),
  ("service.archived", [.equals, .not_equals]),
  ("service.resourceRole", [.equals, .not_equals]),
  ("severity", [.equals, .not_equals]),
  ("type", [.equals, .not_equals]),
  ("updatedAt", [.equals, .not_equals, .greater_than, .greater_than_or_equal, .less_than, .less_than_or_equal])]

/-- Lookup in an association list from field name to condition list; a Go map
index expression on a missing key yields the zero value (a nil slice, []). -/
def lookupConds : List (String × List Cond) → String → List Cond
  | [], _ => []
  | (f, cs) :: rest, field => if f = field then cs else lookupConds rest field

/-- criteriaMap()[field]: the allowed conditions for a field ([] when the
field is not in the registry). -/
def criteriaMap (field : String) : List Cond :=
  lookupConds criteriaMapList field

/-- conditionAllowedForCriterion: linear scan of the allowed conditions. -/
def conditionAllowedForCriterion (criterion : Criterion) : Bool :=
  (criteriaMap criterion.field).any
    (fun availableCondition => decide (availableCondition = criterion.condition))

/-- Decimal digit value of an ASCII character, as in strconv's lower(c) - '0'. -/
def digitVal (c : Char) : Option Nat :=
  if '0' ≤ c ∧ c ≤ '9' then some (c.toNat - '0'.toNat) else none

/-- Accumulate a base-10 natural number from characters; none on a non-digit. -/
def digitsToNat (acc : Nat) : List Char → Option Nat
  | [] => some acc
  | c :: cs =>
    match digitVal c with
    | none => none
    | some d => digitsToNat (acc * 10 + d) cs

def int64Max : Int := 9223372036854775807

def int64Min : Int := -9223372036854775808

/-- strconv.ParseInt(s, 10, 64): optional single leading sign, then one or
more ASCII digits, and the signed value must fit in 64 bits. -/
def parseInt64 (s : String) : Option Int :=
  let parts : Int × List Char :=
    match s.toList with
    | '+' :: rest => (1, rest)
    | '-' :: rest => (-1, rest)
    | cs => (1, cs)
  match parts with
  | (sign, ds) =>
    if ds.isEmpty then none
    else
      match digitsToNat 0 ds with
      | none => none
      | some n =>
        let v : Int := sign * (n : Int)
        if int64Min ≤ v ∧ v ≤ int64Max then some v else none

/-- strconv.FormatInt(v, 10): canonical base-10 form (optional minus sign, no
leading zeros, no plus sign). -/
def formatInt (value : Int) : String :=
  toString value

/-- Errors distinguished inside conditionValueToInt ("Exactly one value must
be given ..." and "Parsing condition value failed ..."). -/
inductive IntErr
  | malformedValueCount (values : List String)
  | malformedValueType (value : String)
deriving DecidableEq

/-- conditionValueToInt: requires exactly one value, parsed as a base-10
64-bit integer. -/
def conditionValueToInt (untypedValues : List String) : Except IntErr Int :=
  match untypedValues with
  | [untypedValue] =>
    match parseInt64 untypedValue with
    | some typedValue => Except.ok typedValue
    | none => Except.error (IntErr.malformedValueType untypedValue)
  | _ => Except.error (IntErr.malformedValueCount untypedValues)

/-- conditionValueToStrings: each untyped value asserted to string; on the
already-typed model this is the identity. -/
def conditionValueToStrings (untypedValues : List String) : List String :=
  untypedValues

/-- Errors returned by serializeFindingCriteria, carrying exactly the data the
source interpolates: the allowed-condition list for "The condition is not
supported for the given field. Supported conditions are: %v", and values[0]
for "Value seems to be not an integer: %v". -/
inductive SerErr
  | unsupportedCondition (supported : List Cond)
  | notAnInteger (value : String)
deriving DecidableEq

/-- Outcome of a Go function that may return an error or hit a runtime panic. -/
inductive GoResult (α : Type)
  | ok (value : α)
  | err (e : SerErr)
  | panicked
deriving DecidableEq

/-- Go map read criteria[field]: nil when the key is absent. -/
def mapGet (criteria : List (String × Condition)) (field : String) : Option Condition :=
  match criteria with
  | [] => none
  | (f, c) :: rest => if f = field then some c else mapGet rest field

/-- Go map write criteria[field] = cond (also covers the in-place mutation of
the pointed-to record: the entry for the key is replaced). -/
def mapSet (criteria : List (String × Condition)) (field : String) (cond : Condition) :
    List (String × Condition) :=
  match criteria with
  | [] => [(field, cond)]
  | (f, c) :: rest =>
    if f = field then (f, cond) :: rest else (f, c) :: mapSet rest field cond

/-- One iteration of serializeFindingCriteria's loop body: validate the
condition, then the switch on the condition string. In the four ordering
branches a failed conditionValueToInt makes the source format
"Value seems to be not an integer: %v" with values[0]; on an empty values
slice that index expression panics. -/
def processCriterion (criteria : List (String × Condition)) (crit : Criterion) :
    GoResult (List (String × Condition)) :=
  if !conditionAllowedForCriterion crit then
    GoResult.err (SerErr.unsupportedCondition (criteriaMap crit.field))
  else
    match crit.condition with
    | Cond.equals =>
      GoResult.ok (mapSet criteria crit.field
        { Equals := conditionValueToStrings crit.values })
    | Cond.greater_than =>
      match conditionValueToInt crit.values with
      | Except.error _ =>
        match crit.values.head? with
        | some v => GoResult.err (SerErr.notAnInteger v)
        | none => GoResult.panicked
      | Except.ok value =>
        match mapGet criteria crit.field with
        | none => GoResult.ok (mapSet criteria crit.field { GreaterThan := some value })
        | some c => GoResult.ok (mapSet criteria crit.field { c with GreaterThan := some value })
    | Cond.greater_than_or_equal =>
      match conditionValueToInt crit.values with
      | Except.error _ =>
        match crit.values.head? with
        | some v => GoResult.err (SerErr.notAnInteger v)
        | none => GoResult.panicked
      | Except.ok value =>
        match mapGet criteria crit.field with
        | none => GoResult.ok (mapSet criteria crit.field { GreaterThanOrEqual := some value })
        | some c => GoResult.ok (mapSet criteria crit.field { c with GreaterThanOrEqual := some value })
    | Cond.less_than =>
      match conditionValueToInt crit.values with
      | Except.error _ =>
        match crit.values.head? with
        | some v => GoResult.err (SerErr.notAnInteger v)
        | none => GoResult.panicked
      | Except.ok value =>
        match mapGet criteria crit.field with
        | none => GoResult.ok (mapSet criteria crit.field { LessThan := some value })
        | some c => GoResult.ok (mapSet criteria crit.field { c with LessThan := some value })
    | Cond.less_than_or_equal =>
      match conditionValueToInt crit.values with
      | Except.error _ =>
        match crit.values.head? with
        | some v => GoResult.err (SerErr.notAnInteger v)
        | none => GoResult.panicked
      | Except.ok value =>
        match mapGet criteria crit.field with
        | none => GoResult.ok (mapSet criteria crit.field { LessThanOrEqual := some value })
        | some c => GoResult.ok (mapSet criteria crit.field { c with LessThanOrEqual := some value })
    | Cond.not_equals =>
      GoResult.ok (mapSet criteria crit.field
        { NotEquals := conditionValueToStrings crit.values })

/-- The loop of serializeFindingCriteria over the criterion list, threading
the criteria map and propagating the first error (or panic). -/
def serializeLoop (criteria : List (String × Condition)) :
    List Criterion → GoResult (List (String × Condition))
  | [] => GoResult.ok criteria
  | crit :: rest =>
    match processCriterion criteria crit with
    | GoResult.ok criteria2 => serializeLoop criteria2 rest
    | GoResult.err e => GoResult.err e
    | GoResult.panicked => GoResult.panicked

/-- serializeFindingCriteria: fold the input criterion list over an initially
empty criteria map. -/
def serializeFindingCriteria (input : List Criterion) :
    GoResult (List (String × Condition)) :=
  serializeLoop [] input

/-- flattenIntCondition: one criterion with the decimal string of the value. -/
def flattenIntCondition (field : String) (conditionName : Cond) (conditionValue : Int) :
    Criterion :=
  { field := field, condition := conditionName, values := [formatInt conditionValue] }

/-- flattenStringCondition: one criterion with all the set's values in order. -/
def flattenStringCondition (field : String) (conditionName : Cond)
    (conditionValues : List String) : Criterion :=
  { field := field, condition := conditionName, values := conditionValues }

/-- The six attribute checks of flattenFindingCriteria's loop body for one
field, in source order: equals, not_equals, greater_than,
greater_than_or_equal, less_than, less_than_or_equal. -/
def flattenField (field : String) (conditions : Condition) : List Criterion :=
  (if conditions.Equals.length > 0 then
    [flattenStringCondition field Cond.equals conditions.Equals] else []) ++
  (if conditions.NotEquals.length > 0 then
    [flattenStringCondition field Cond.not_equals conditions.NotEquals] else []) ++
  (match conditions.GreaterThan with
   | some v => [flattenIntCondition field Cond.greater_than v]
   | none => []) ++
  (match conditions.GreaterThanOrEqual with
   | some v => [flattenIntCondition field Cond.greater_than_or_equal v]
   | none => []) ++
  (match conditions.LessThan with
   | some v => [flattenIntCondition field Cond.less_than v]
   | none => []) ++
  (match conditions.LessThanOrEqual with
   | some v => [flattenIntCondition field Cond.less_than_or_equal v]
   | none => [])

/-- flattenFindingCriteria: the flatCriteria list, accumulated field by field
over the entries of the criterion map (the entry order of the association
list stands for one iteration order of the Go map). -/
def flattenFindingCriteria : List (String × Condition) → List Criterion
  | [] => []
  | (field, conditions) :: rest => flattenField field conditions ++ flattenFindingCriteria rest

/-! Helper lemmas about the embedded operations. -/

theorem conditionAllowed_iff (crit : Criterion) :
    conditionAllowedForCriterion crit = true ↔ crit.condition ∈ criteriaMap crit.field := by
  simp only [conditionAllowedForCriterion, List.any_eq_true, decide_eq_true_eq]
  constructor
  · rintro ⟨a, ha, rfl⟩; exact ha
  · intro h; exact ⟨crit.condition, h, rfl⟩

theorem lookupConds_eq_nil (l : List (String × List Cond)) (f : String)
    (h : f ∉ l.map Prod.fst) : lookupConds l f = [] := by
  induction l with
  | nil => rfl
  | cons hd tl ih =>
    obtain ⟨g, cs⟩ := hd
    simp only [List.map_cons, List.mem_cons, not_or] at h
    simp only [lookupConds, if_neg (Ne.symm h.1)]
    exact ih h.2

theorem mapGet_mapSet_fresh (m : List (String × Condition)) (f : String) (c : Condition)
    (h : mapGet m f = none) : mapSet m f c = m ++ [(f, c)] := by
  induction m with
  | nil => rfl
  | cons hd tl ih =>
    obtain ⟨g, d⟩ := hd
    simp only [mapGet] at h
    by_cases hgf : g = f
    · simp [hgf] at h
    · simp only [mapSet, if_neg hgf, List.cons_append]
      rw [ih (by simpa [if_neg hgf] using h)]

theorem mapGet_append_fresh (m : List (String × Condition)) (f g : String) (c : Condition)
    (hm : mapGet m g = none) (hfg : f ≠ g) : mapGet (m ++ [(f, c)]) g = none := by
  induction m with
  | nil => simp [mapGet, hfg]
  | cons hd tl ih =>
    obtain ⟨a, b⟩ := hd
    simp only [mapGet] at hm ⊢
    by_cases hag : a = g
    · simp [hag] at hm
    · simp only [if_neg hag] at hm ⊢
      exact ih hm

theorem mapSet_keys (m : List (String × Condition)) (f g : String) (c : Condition) :
    g ∈ (mapSet m f c).map Prod.fst ↔ g ∈ m.map Prod.fst ∨ g = f := by
  induction m with
  | nil => simp [mapSet]
  | cons hd tl ih =>
    obtain ⟨a, b⟩ := hd
    by_cases haf : a = f
    · subst haf
      rw [mapSet, if_pos rfl]
      simp only [List.map_cons, List.mem_cons]
      tauto
    · rw [mapSet, if_neg haf]
      simp only [List.map_cons, List.mem_cons, ih]
      tauto

theorem processCriterion_ok_allowed (m m2 : List (String × Condition)) (crit : Criterion)
    (h : processCriterion m crit = GoResult.ok m2) :
    conditionAllowedForCriterion crit = true := by
  by_cases ha : conditionAllowedForCriterion crit = true
  · exact ha
  · exfalso
    simp only [processCriterion, Bool.not_eq_true'] at h
    rw [Bool.not_eq_true] at ha
    rw [if_pos ha] at h
    exact GoResult.noConfusion h

theorem processCriterion_ok_mapSet (m m2 : List (String × Condition)) (crit : Criterion)
    (h : processCriterion m crit = GoResult.ok m2) :
    ∃ c, m2 = mapSet m crit.field c := by
  obtain ⟨f, cond, vs⟩ := crit
  cases cond <;> simp only [processCriterion] at h <;> split at h <;>
    first
    | exact GoResult.noConfusion h
    | exact ⟨_, (GoResult.ok.inj h).symm⟩
    | { split at h
        · split at h <;> exact GoResult.noConfusion h
        · split at h <;> exact ⟨_, (GoResult.ok.inj h).symm⟩ }

theorem serializeLoop_ok_keys (L : List Criterion) :
    ∀ m fc, serializeLoop m L = GoResult.ok fc →
      ∀ g, (g ∈ fc.map Prod.fst ↔ g ∈ m.map Prod.fst ∨ g ∈ L.map Criterion.field) := by
  induction L with
  | nil =>
    intro m fc h g
    simp only [serializeLoop] at h
    injection h with h1
    subst h1
    simp
  | cons crit rest ih =>
    intro m fc h g
    simp only [serializeLoop] at h
    split at h
    next m2 hp =>
      obtain ⟨c, rfl⟩ := processCriterion_ok_mapSet m m2 crit hp
      rw [ih _ _ h g, mapSet_keys]
      simp only [List.map_cons, List.mem_cons]
      tauto
    next => exact GoResult.noConfusion h
    next => exact GoResult.noConfusion h

theorem serializeLoop_ok_allowed (L : List Criterion) :
    ∀ m fc, serializeLoop m L = GoResult.ok fc →
      ∀ crit ∈ L, conditionAllowedForCriterion crit = true := by
  induction L with
  | nil => intro m fc h crit hc; cases hc
  | cons c0 rest ih =>
    intro m fc h crit hc
    simp only [serializeLoop] at h
    split at h
    next m2 hp =>
      rcases List.mem_cons.mp hc with rfl | hmem
      · exact processCriterion_ok_allowed m m2 crit hp
      · exact ih _ _ h crit hmem
    next => exact GoResult.noConfusion h
    next => exact GoResult.noConfusion h

theorem serializeLoop_not_ok_of_disallowed (L : List Criterion) (crit : Criterion)
    (hbad : conditionAllowedForCriterion crit = false) (hmem : crit ∈ L) :
    ∀ m fc, serializeLoop m L ≠ GoResult.ok fc := by
  intro m fc h
  have := serializeLoop_ok_allowed L m fc h crit hmem
  rw [hbad] at this
  exact Bool.noConfusion this

theorem flattenField_field (g : String) (c : Condition) :
    ∀ r ∈ flattenField g c, r.field = g := by
  intro r hr
  simp only [flattenField, List.mem_append] at hr
  rcases hr with ((((hr | hr) | hr) | hr) | hr) | hr <;> split at hr <;>
    simp_all [flattenStringCondition, flattenIntCondition]

theorem mem_flattenFindingCriteria_keys (fc : List (String × Condition)) :
    ∀ r ∈ flattenFindingCriteria fc, r.field ∈ fc.map Prod.fst := by
  induction fc with
  | nil => intro r hr; cases hr
  | cons hd tl ih =>
    obtain ⟨g, c⟩ := hd
    intro r hr
    simp only [flattenFindingCriteria, List.mem_append] at hr
    rcases hr with hr | hr
    · simp [flattenField_field g c r hr]
    · simp [ih r hr]

/-- Position of each condition in flattenFindingCriteria's fixed check order. -/
def condIdx : Cond → Nat
  | Cond.equals => 0
  | Cond.not_equals => 1
  | Cond.greater_than => 2
  | Cond.greater_than_or_equal => 3
  | Cond.less_than => 4
  | Cond.less_than_or_equal => 5

theorem flattenField_sorted (g : String) (c : Condition) :
    (flattenField g c).Pairwise (fun a b => condIdx a.condition ≤ condIdx b.condition) := by
  unfold flattenField
  split <;> split <;> split <;> split <;> split <;> split <;>
    simp [List.pairwise_append, List.pairwise_cons, flattenStringCondition,
      flattenIntCondition, condIdx]

theorem filter_flattenField_eq_self (f : String) (c : Condition) :
    (flattenField f c).filter (fun r => decide (r.field = f)) = flattenField f c :=
  List.filter_eq_self.mpr (fun r hr => decide_eq_true (flattenField_field f c r hr))

theorem filter_flattenField_eq_nil (g f : String) (c : Condition) (hgf : g ≠ f) :
    (flattenField g c).filter (fun r => decide (r.field = f)) = [] :=
  List.filter_eq_nil_iff.mpr (fun r hr => by
    simp [flattenField_field g c r hr, hgf])

theorem filter_flattenFindingCriteria_eq_nil (fc : List (String × Condition)) (f : String)
    (hf : f ∉ fc.map Prod.fst) :
    (flattenFindingCriteria fc).filter (fun r => decide (r.field = f)) = [] :=
  List.filter_eq_nil_iff.mpr (fun r hr => by
    intro hd
    rw [decide_eq_true_eq] at hd
    exact hf (hd ▸ mem_flattenFindingCriteria_keys fc r hr))

/-- parsedValue values: the integer of a well-formed single-value ordering
criterion (none when the count or the parse fails). -/
def parsedValue (values : List String) : Option Int :=
  match values with
  | [v] => parseInt64 v
  | _ => none

/-- canonicalIntValue values: exactly one value, it parses as a 64-bit
integer, and it is already in canonical decimal form. -/
def canonicalIntValue (values : List String) : Bool :=
  match parsedValue values with
  | some n => decide (values = [formatInt n])
  | none => false

/-- critRoundTrips crit: the per-criterion conditions under which one
criterion survives Serialize;Flatten unchanged — its condition is allowed for
its field, a string-set criterion carries at least one value, and an ordering
criterion carries exactly one canonical-form integer value. -/
def critRoundTrips (crit : Criterion) : Bool :=
  conditionAllowedForCriterion crit &&
  (match crit.condition with
   | Cond.equals => !crit.values.isEmpty
   | Cond.not_equals => !crit.values.isEmpty
   | _ => canonicalIntValue crit.values)

/-- condOf crit: the fresh single-attribute Condition Record that processing
crit on an untouched field produces. -/
def condOf (crit : Criterion) : Condition :=
  match crit.condition with
  | Cond.equals => { Equals := conditionValueToStrings crit.values }
  | Cond.not_equals => { NotEquals := conditionValueToStrings crit.values }
  | Cond.greater_than => { GreaterThan := parsedValue crit.values }
  | Cond.greater_than_or_equal => { GreaterThanOrEqual := parsedValue crit.values }
  | Cond.less_than => { LessThan := parsedValue crit.values }
  | Cond.less_than_or_equal => { LessThanOrEqual := parsedValue crit.values }

theorem canonicalIntValue_spec (values : List String) (h : canonicalIntValue values = true) :
    ∃ n, parsedValue values = some n ∧ values = [formatInt n] := by
  unfold canonicalIntValue at h
  cases hp : parsedValue values <;> rw [hp] at h
  · exact Bool.noConfusion h
  · exact ⟨_, rfl, of_decide_eq_true h⟩

theorem conditionValueToInt_of_parsedValue (values : List String) (n : Int)
    (h : parsedValue values = some n) : conditionValueToInt values = Except.ok n := by
  rcases values with _ | ⟨v, _ | ⟨v2, vs⟩⟩
  · simp [parsedValue] at h
  · simp only [parsedValue] at h
    simp [conditionValueToInt, h]
  · simp [parsedValue] at h

theorem processCriterion_fresh (m : List (String × Condition)) (crit : Criterion)
    (hval : critRoundTrips crit = true) (hfresh : mapGet m crit.field = none) :
    processCriterion m crit = GoResult.ok (m ++ [(crit.field, condOf crit)]) := by
  obtain ⟨f, cond, vs⟩ := crit
  simp only [critRoundTrips, Bool.and_eq_true] at hval
  obtain ⟨hall, hv⟩ := hval
  simp only at hfresh hv
  cases cond <;>
    simp only [processCriterion, hall, Bool.not_true, Bool.false_eq_true, if_false, condOf]
  case equals => rw [mapGet_mapSet_fresh m f _ hfresh]
  case not_equals => rw [mapGet_mapSet_fresh m f _ hfresh]
  all_goals {
    obtain ⟨n, hp, hcan⟩ := canonicalIntValue_spec vs hv
    simp only [conditionValueToInt_of_parsedValue vs n hp, hfresh, hp]
    rw [mapGet_mapSet_fresh m f _ hfresh] }

theorem serializeLoop_fresh (L : List Criterion) :
    ∀ m, (∀ c ∈ L, critRoundTrips c = true) →
      (L.map Criterion.field).Nodup →
      (∀ c ∈ L, mapGet m c.field = none) →
      serializeLoop m L = GoResult.ok (m ++ L.map (fun c => (c.field, condOf c))) := by
  induction L with
  | nil => intro m _ _ _; simp [serializeLoop]
  | cons crit rest ih =>
    intro m hval hnd hfresh
    simp only [List.map_cons, List.nodup_cons] at hnd
    have hp := processCriterion_fresh m crit (hval crit (List.mem_cons_self _ _))
      (hfresh crit (List.mem_cons_self _ _))
    simp only [serializeLoop, hp]
    have hrest : ∀ c ∈ rest, mapGet (m ++ [(crit.field, condOf crit)]) c.field = none := by
      intro c hc
      apply mapGet_append_fresh
      · exact hfresh c (List.mem_cons_of_mem _ hc)
      · intro he
        apply hnd.1
        rw [he]
        exact List.mem_map.mpr ⟨c, hc, rfl⟩
    rw [ih (m ++ [(crit.field, condOf crit)])
      (fun c hc => hval c (List.mem_cons_of_mem _ hc)) hnd.2 hrest]
    simp

theorem serializeFindingCriteria_valid (L : List Criterion)
    (hval : ∀ c ∈ L, critRoundTrips c = true)
    (hnd : (L.map Criterion.field).Nodup) :
    serializeFindingCriteria L = GoResult.ok (L.map (fun c => (c.field, condOf c))) := by
  have h := serializeLoop_fresh L [] hval hnd (fun c _ => rfl)
  simpa [serializeFindingCriteria] using h

theorem flattenField_condOf (crit : Criterion) (hval : critRoundTrips crit = true) :
    flattenField crit.field (condOf crit) = [crit] := by
  obtain ⟨f, cond, vs⟩ := crit
  simp only [critRoundTrips, Bool.and_eq_true] at hval
  obtain ⟨-, hv⟩ := hval
  cases cond
  case equals =>
    rcases vs with _ | ⟨v, vs2⟩
    · simp at hv
    · simp [condOf, conditionValueToStrings, flattenField, flattenStringCondition]
  case not_equals =>
    rcases vs with _ | ⟨v, vs2⟩
    · simp at hv
    · simp [condOf, conditionValueToStrings, flattenField, flattenStringCondition]
  all_goals {
    obtain ⟨n, hp, hcan⟩ := canonicalIntValue_spec vs hv
    subst hcan
    simp only [parsedValue] at hp
    simp [condOf, parsedValue, flattenField, flattenIntCondition, hp] }

theorem flattenFindingCriteria_map_condOf (L : List Criterion)
    (hval : ∀ c ∈ L, critRoundTrips c = true) :
    flattenFindingCriteria (L.map (fun c => (c.field, condOf c))) = L := by
  induction L with
  | nil => rfl
  | cons crit rest ih =>
    simp only [List.map_cons, flattenFindingCriteria]
    rw [flattenField_condOf crit (hval crit (List.mem_cons_self _ _)),
      ih (fun c hc => hval c (List.mem_cons_of_mem _ hc))]
    rfl

theorem flattenFindingCriteria_perm (fc1 fc2 : List (String × Condition))
    (h : fc1.Perm fc2) :
    (flattenFindingCriteria fc1).Perm (flattenFindingCriteria fc2) := by
  induction h with
  | nil => exact List.Perm.refl _
  | cons x h ih =>
    obtain ⟨g, c⟩ := x
    simp only [flattenFindingCriteria]
    exact ih.append_left _
  | swap x y l =>
    obtain ⟨g1, c1⟩ := x
    obtain ⟨g2, c2⟩ := y
    simp only [flattenFindingCriteria, ← List.append_assoc]
    exact List.Perm.append_right _ List.perm_append_comm
  | trans h1 h2 ih1 ih2 => exact ih1.trans ih2

/-! Claim theorems. -/

/-- C1 (counterexample): the round trip is not exact as claimed — the
criterion {updatedAt, greater_than, ["05"]} is accepted by Serialize, but
Flatten of the Serialize result yields values ["5"], a different
(field, condition, values) triple, and greater_than is not a set-valued
condition so no value-reorder exemption applies. -/
theorem roundTrip_counterexample :
    serializeFindingCriteria [⟨"updatedAt", Cond.greater_than, ["05"]⟩] =
      GoResult.ok [("updatedAt", { GreaterThan := some 5 })] ∧
    flattenFindingCriteria [("updatedAt", { GreaterThan := some 5 })] =
      [⟨"updatedAt", Cond.greater_than, ["5"]⟩] ∧
    (⟨"updatedAt", Cond.greater_than, ["5"]⟩ : Criterion) ≠
      ⟨"updatedAt", Cond.greater_than, ["05"]⟩ :=
  ⟨rfl, rfl, by decide⟩

/-- C1 (amended): for criteria lists accepted by Serialize in which each
field appears in at most one criterion, every equals/not_equals criterion has
a non-empty values list, and every ordering criterion's single value is in
canonical base-10 form, Flatten of the Serialize result — under any iteration
order of the resulting field map — is a permutation of the input criteria
(the same set of (field, condition, values) triples). -/
theorem serialize_flatten_roundTrip (L : List Criterion)
    (hval : ∀ c ∈ L, critRoundTrips c = true)
    (hnd : (L.map Criterion.field).Nodup) :
    ∃ fc, serializeFindingCriteria L = GoResult.ok fc ∧
      ∀ fc2, fc2.Perm fc → (flattenFindingCriteria fc2).Perm L := by
  refine ⟨L.map (fun c => (c.field, condOf c)),
    serializeFindingCriteria_valid L hval hnd, ?_⟩
  intro fc2 hperm
  have h1 := flattenFindingCriteria_perm fc2 _ hperm
  rw [flattenFindingCriteria_map_condOf L hval] at h1
  exact h1

/-- C1 (witness): the amended round trip evaluated on the concrete input
[{id, equals, ["a","b"]}, {updatedAt, greater_than, ["5"]}] with the field
map iterated in reversed order. -/
theorem serialize_flatten_roundTrip_witness :
    (flattenFindingCriteria
        [("updatedAt", { GreaterThan := some 5 }), ("id", { Equals := ["a", "b"] })]).Perm
      [⟨"id", Cond.equals, ["a", "b"]⟩, ⟨"updatedAt", Cond.greater_than, ["5"]⟩] := by
  obtain ⟨fc, hok, hperm⟩ := serialize_flatten_roundTrip
    [⟨"id", Cond.equals, ["a", "b"]⟩, ⟨"updatedAt", Cond.greater_than, ["5"]⟩]
    (by decide) (by decide)
  have hfc : fc = [("id", { Equals := ["a", "b"] }), ("updatedAt", { GreaterThan := some 5 })] :=
    GoResult.ok.inj (hok.symm.trans (by rfl))
  apply hperm
  rw [hfc]
  exact List.Perm.swap _ _ _

/-- C2 (counterexample): an equals and a not_equals criterion for the same
field do not coexist — processing the not_equals criterion replaces the
field's whole Condition Record, so the earlier equals value set is lost. -/
theorem equals_notEquals_no_coexist_counterexample :
    serializeFindingCriteria [⟨"id", Cond.equals, ["a"]⟩, ⟨"id", Cond.not_equals, ["b"]⟩] =
      GoResult.ok [("id", { NotEquals := ["b"] })] ∧
    ({ NotEquals := ["b"] } : Condition).Equals = [] :=
  ⟨rfl, rfl⟩

/-- C2 (amended): processing an equals or not_equals criterion assigns a
fresh Condition Record carrying only that operator's attribute, discarding
any attributes previously accumulated for the field (so equals and
not_equals for one field do not coexist — the later one wins — and an
ordering bound set before an equals/not_equals criterion is lost); ordering
criteria processed after an equals/not_equals criterion do combine onto the
existing record. -/
theorem stringSet_condition_replaces_record (f : String) (vs1 vs2 : List String)
    (he : Cond.equals ∈ criteriaMap f) (hne : Cond.not_equals ∈ criteriaMap f)
    (hgt : Cond.greater_than ∈ criteriaMap f) :
    serializeFindingCriteria [⟨f, Cond.equals, vs1⟩, ⟨f, Cond.not_equals, vs2⟩] =
      GoResult.ok [(f, { NotEquals := vs2 })] ∧
    serializeFindingCriteria [⟨f, Cond.greater_than, ["7"]⟩, ⟨f, Cond.equals, vs1⟩] =
      GoResult.ok [(f, { Equals := vs1 })] ∧
    serializeFindingCriteria [⟨f, Cond.equals, vs1⟩, ⟨f, Cond.greater_than, ["7"]⟩] =
      GoResult.ok [(f, { Equals := vs1, GreaterThan := some 7 })] := by
  have ha1 : conditionAllowedForCriterion ⟨f, Cond.equals, vs1⟩ = true :=
    (conditionAllowed_iff _).mpr he
  have ha2 : conditionAllowedForCriterion ⟨f, Cond.not_equals, vs2⟩ = true :=
    (conditionAllowed_iff _).mpr hne
  have ha3 : conditionAllowedForCriterion ⟨f, Cond.greater_than, ["7"]⟩ = true :=
    (conditionAllowed_iff _).mpr hgt
  have h7 : conditionValueToInt ["7"] = Except.ok 7 := rfl
  refine ⟨?_, ?_, ?_⟩ <;>
    simp [serializeFindingCriteria, serializeLoop, processCriterion, ha1, ha2, ha3, h7,
      mapGet, mapSet, conditionValueToStrings]

/-- C2 (witness): the amended statement evaluated at field updatedAt with
values ["x"] and ["y"]. -/
theorem stringSet_condition_replaces_record_witness :
    serializeFindingCriteria
        [⟨"updatedAt", Cond.equals, ["x"]⟩, ⟨"updatedAt", Cond.not_equals, ["y"]⟩] =
      GoResult.ok [("updatedAt", { NotEquals := ["y"] })] ∧
    serializeFindingCriteria
        [⟨"updatedAt", Cond.greater_than, ["7"]⟩, ⟨"updatedAt", Cond.equals, ["x"]⟩] =
      GoResult.ok [("updatedAt", { Equals := ["x"] })] ∧
    serializeFindingCriteria
        [⟨"updatedAt", Cond.equals, ["x"]⟩, ⟨"updatedAt", Cond.greater_than, ["7"]⟩] =
      GoResult.ok [("updatedAt", { Equals := ["x"], GreaterThan := some 7 })] :=
  stringSet_condition_replaces_record "updatedAt" ["x"] ["y"]
    (by decide) (by decide) (by decide)

/-- C3 (counterexample): a list containing a criterion whose condition is not
allowed for its field need not fail with UnsupportedCondition — an earlier
invalid criterion can fail first with a different error. Here greater_than is
not allowed for id, yet the error reported is the not-an-integer error of the
first criterion. -/
theorem unsupported_condition_first_error_counterexample :
    Cond.greater_than ∉ criteriaMap "id" ∧
    serializeFindingCriteria
        [⟨"updatedAt", Cond.greater_than, ["x"]⟩, ⟨"id", Cond.greater_than, ["1"]⟩] =
      GoResult.err (SerErr.notAnInteger "x") :=
  ⟨by decide, rfl⟩

/-- C3 (amended): Serialize never returns a FindingCriteria for any list
containing a criterion whose condition is outside the registry's allowed set
for its field; and when that criterion is the first one processed — in
particular for the singleton list — the failure is the UnsupportedCondition
validation error naming the allowed conditions for the field. -/
theorem unsupported_condition_rejected (f : String) (c : Cond) (vs : List String)
    (h : c ∉ criteriaMap f) :
    serializeFindingCriteria [⟨f, c, vs⟩] =
      GoResult.err (SerErr.unsupportedCondition (criteriaMap f)) ∧
    ∀ L, (⟨f, c, vs⟩ : Criterion) ∈ L →
      ∀ fc, serializeFindingCriteria L ≠ GoResult.ok fc := by
  have hbad : conditionAllowedForCriterion ⟨f, c, vs⟩ = false := by
    rw [← Bool.not_eq_true]
    intro ht
    exact h ((conditionAllowed_iff _).mp ht)
  constructor
  · simp [serializeFindingCriteria, serializeLoop, processCriterion, hbad]
  · intro L hm fc
    exact serializeLoop_not_ok_of_disallowed L _ hbad hm [] fc

/-- C3 (witness): the amended statement evaluated at field id with condition
less_than (not allowed for id). -/
theorem unsupported_condition_rejected_witness :
    serializeFindingCriteria [⟨"id", Cond.less_than, ["1"]⟩] =
      GoResult.err (SerErr.unsupportedCondition (criteriaMap "id")) ∧
    serializeFindingCriteria [⟨"id", Cond.less_than, ["1"]⟩] ≠ GoResult.ok [] :=
  ⟨(unsupported_condition_rejected "id" Cond.less_than ["1"] (by decide)).1,
   (unsupported_condition_rejected "id" Cond.less_than ["1"] (by decide)).2
     [⟨"id", Cond.less_than, ["1"]⟩] (by simp) []⟩

/-- C4 (code evaluation): conditionValueToInt distinguishes the wrong-count
error from the not-an-integer error and enforces the 64-bit base-10 bound;
serializeFindingCriteria turns both into the not-an-integer error built from
values[0] — and with an empty values list it panics (index out of range on
values[0]) instead of returning the claimed validation error. -/
theorem ordering_value_validation :
    conditionValueToInt [] = Except.error (IntErr.malformedValueCount []) ∧
    conditionValueToInt ["5", "6"] = Except.error (IntErr.malformedValueCount ["5", "6"]) ∧
    conditionValueToInt ["abc"] = Except.error (IntErr.malformedValueType "abc") ∧
    conditionValueToInt ["9223372036854775808"] =
      Except.error (IntErr.malformedValueType "9223372036854775808") ∧
    conditionValueToInt ["5"] = Except.ok 5 ∧
    conditionValueToInt ["-9223372036854775808"] = Except.ok (-9223372036854775808) ∧
    serializeFindingCriteria [⟨"updatedAt", Cond.greater_than, ["5", "6"]⟩] =
      GoResult.err (SerErr.notAnInteger "5") ∧
    serializeFindingCriteria [⟨"updatedAt", Cond.greater_than, ["abc"]⟩] =
      GoResult.err (SerErr.notAnInteger "abc") ∧
    serializeFindingCriteria [⟨"updatedAt", Cond.greater_than, ["5"]⟩] =
      GoResult.ok [("updatedAt", { GreaterThan := some 5 })] ∧
    serializeFindingCriteria [⟨"updatedAt", Cond.greater_than, []⟩] = GoResult.panicked :=
  ⟨rfl, rfl, rfl, rfl, rfl, rfl, rfl, rfl, rfl, rfl⟩

/-- C5: for every field allowing both bounds, Serialize of
[{f, greater_than, ["5"]}, {f, less_than, ["10"]}] succeeds with a single
Condition Record for f carrying both bounds (record created on the first
criterion, mutated in place by the second), and Flatten yields exactly the
two Criterion records greater_than ["5"] and less_than ["10"]. -/
theorem ordering_bounds_combine (f : String)
    (hgt : Cond.greater_than ∈ criteriaMap f) (hlt : Cond.less_than ∈ criteriaMap f) :
    serializeFindingCriteria [⟨f, Cond.greater_than, ["5"]⟩, ⟨f, Cond.less_than, ["10"]⟩] =
      GoResult.ok [(f, { GreaterThan := some 5, LessThan := some 10 })] ∧
    flattenFindingCriteria [(f, { GreaterThan := some 5, LessThan := some 10 })] =
      [⟨f, Cond.greater_than, ["5"]⟩, ⟨f, Cond.less_than, ["10"]⟩] := by
  have ha1 : conditionAllowedForCriterion ⟨f, Cond.greater_than, ["5"]⟩ = true :=
    (conditionAllowed_iff _).mpr hgt
  have ha2 : conditionAllowedForCriterion ⟨f, Cond.less_than, ["10"]⟩ = true :=
    (conditionAllowed_iff _).mpr hlt
  have h5 : conditionValueToInt ["5"] = Except.ok 5 := rfl
  have h10 : conditionValueToInt ["10"] = Except.ok 10 := rfl
  have e5 : formatInt 5 = "5" := by decide
  have e10 : formatInt 10 = "10" := by decide
  constructor
  · simp [serializeFindingCriteria, serializeLoop, processCriterion, ha1, ha2, h5, h10,
      mapGet, mapSet]
  · simp [flattenFindingCriteria, flattenField, flattenIntCondition, e5, e10]

/-- C5 (witness): the two-bound combination evaluated at the field
updatedAt. -/
theorem ordering_bounds_combine_witness :
    serializeFindingCriteria
        [⟨"updatedAt", Cond.greater_than, ["5"]⟩, ⟨"updatedAt", Cond.less_than, ["10"]⟩] =
      GoResult.ok [("updatedAt", { GreaterThan := some 5, LessThan := some 10 })] ∧
    flattenFindingCriteria [("updatedAt", { GreaterThan := some 5, LessThan := some 10 })] =
      [⟨"updatedAt", Cond.greater_than, ["5"]⟩, ⟨"updatedAt", Cond.less_than, ["10"]⟩] :=
  ordering_bounds_combine "updatedAt" (by decide) (by decide)

/-- C6: for every criterion map (in any iteration order) whose field names
are distinct, the Criterion records Flatten emits for any single field f
appear in the fixed check order equals, not_equals, greater_than,
greater_than_or_equal, less_than, less_than_or_equal. -/
theorem flatten_per_field_check_order (fc : List (String × Condition))
    (hnd : (fc.map Prod.fst).Nodup) (f : String) :
    ((flattenFindingCriteria fc).filter (fun r => decide (r.field = f))).Pairwise
      (fun a b => condIdx a.condition ≤ condIdx b.condition) := by
  induction fc with
  | nil => simp [flattenFindingCriteria]
  | cons hd tl ih =>
    obtain ⟨g, c⟩ := hd
    simp only [List.map_cons, List.nodup_cons] at hnd
    simp only [flattenFindingCriteria, List.filter_append]
    by_cases hgf : g = f
    · subst hgf
      rw [filter_flattenField_eq_self, filter_flattenFindingCriteria_eq_nil tl g hnd.1,
        List.append_nil]
      exact flattenField_sorted g c
    · rw [filter_flattenField_eq_nil g f c hgf, List.nil_append]
      exact ih hnd.2

/-- C6 (witness): the per-field check order evaluated on a concrete two-field
map listing updatedAt's attributes out of check order. -/
theorem flatten_per_field_check_order_witness :
    (((flattenFindingCriteria
        [("updatedAt", { Equals := ["a"], GreaterThan := some 1, LessThan := some 3 }),
         ("id", { NotEquals := ["b"] })]).filter
      (fun r => decide (r.field = "updatedAt"))).Pairwise
      (fun a b => condIdx a.condition ≤ condIdx b.condition)) :=
  flatten_per_field_check_order
    [("updatedAt", { Equals := ["a"], GreaterThan := some 1, LessThan := some 3 }),
     ("id", { NotEquals := ["b"] })] (by decide) "updatedAt"

/-- C7: when Serialize succeeds, the domain of the resulting field map is
exactly the set of field names referenced by the input criteria. -/
theorem serialize_domain_eq_input_fields (L : List Criterion)
    (fc : List (String × Condition))
    (h : serializeFindingCriteria L = GoResult.ok fc) (g : String) :
    g ∈ fc.map Prod.fst ↔ g ∈ L.map Criterion.field := by
  simpa using serializeLoop_ok_keys L [] fc h g

/-- C7 (witness): the domain equality evaluated on a concrete one-criterion
input. -/
theorem serialize_domain_eq_input_fields_witness :
    ("id" ∈ ([("id", { Equals := ["a"] })] : List (String × Condition)).map Prod.fst ↔
      "id" ∈ [(⟨"id", Cond.equals, ["a"]⟩ : Criterion)].map Criterion.field) :=
  serialize_domain_eq_input_fields [⟨"id", Cond.equals, ["a"]⟩]
    [("id", { Equals := ["a"] })] rfl "id"

/-- C8: in the Field Registry, updatedAt is mapped to all six conditions,
every other entry is mapped to exactly [equals, not_equals], and the
registry's field names are globally unique (the registry itself is a fixed
constant of the embedding, immutable by construction). -/
theorem criteriaMap_registry_shape :
    criteriaMap "updatedAt" =
      [Cond.equals, Cond.not_equals, Cond.greater_than, Cond.greater_than_or_equal,
       Cond.less_than, Cond.less_than_or_equal] ∧
    (criteriaMapList.filter
        (fun p => !decide (p.2 = [Cond.equals, Cond.not_equals]))).map Prod.fst =
      ["updatedAt"] ∧
    (criteriaMapList.map Prod.fst).Nodup :=
  ⟨rfl, rfl, by decide⟩

/-- C9: Flatten emits an equals (respectively not_equals) Criterion for a
field exactly when that field's record carries a non-empty equals
(respectively not_equals) value set; consequently {f, equals, []} is
accepted by Serialize but Flatten of the result emits nothing. -/
theorem flatten_emits_only_nonempty_string_sets :
    (∀ f c, (∃ r ∈ flattenField f c, r.condition = Cond.equals) ↔ c.Equals ≠ []) ∧
    (∀ f c, (∃ r ∈ flattenField f c, r.condition = Cond.not_equals) ↔ c.NotEquals ≠ []) ∧
    (∀ f, Cond.equals ∈ criteriaMap f →
      serializeFindingCriteria [⟨f, Cond.equals, []⟩] = GoResult.ok [(f, {})] ∧
      flattenFindingCriteria [(f, ({} : Condition))] = []) := by
  refine ⟨?_, ?_, ?_⟩
  · intro f c
    constructor
    · rintro ⟨r, hr, hcond⟩
      simp only [flattenField, List.mem_append] at hr
      rcases hr with ((((hr | hr) | hr) | hr) | hr) | hr <;> split at hr <;>
        simp_all [flattenStringCondition, flattenIntCondition, List.length_pos]
    · intro hE
      refine ⟨flattenStringCondition f Cond.equals c.Equals, ?_, rfl⟩
      simp only [flattenField, List.mem_append]
      refine Or.inl (Or.inl (Or.inl (Or.inl (Or.inl ?_))))
      rw [if_pos (by simpa using List.length_pos.mpr hE)]
      exact List.mem_singleton.mpr rfl
  · intro f c
    constructor
    · rintro ⟨r, hr, hcond⟩
      simp only [flattenField, List.mem_append] at hr
      rcases hr with ((((hr | hr) | hr) | hr) | hr) | hr <;> split at hr <;>
        simp_all [flattenStringCondition, flattenIntCondition, List.length_pos]
    · intro hE
      refine ⟨flattenStringCondition f Cond.not_equals c.NotEquals, ?_, rfl⟩
      simp only [flattenField, List.mem_append]
      refine Or.inl (Or.inl (Or.inl (Or.inl (Or.inr ?_))))
      rw [if_pos (by simpa using List.length_pos.mpr hE)]
      exact List.mem_singleton.mpr rfl
  · intro f he
    have ha : conditionAllowedForCriterion ⟨f, Cond.equals, []⟩ = true :=
      (conditionAllowed_iff _).mpr he
    constructor
    · simp [serializeFindingCriteria, serializeLoop, processCriterion, ha, mapSet,
        conditionValueToStrings]
    · rfl

/-- C9 (witness): the empty-equals behavior evaluated at the field id. -/
theorem flatten_emits_only_nonempty_string_sets_witness :
    serializeFindingCriteria [⟨"id", Cond.equals, []⟩] = GoResult.ok [("id", {})] ∧
    flattenFindingCriteria [("id", ({} : Condition))] = [] :=
  flatten_emits_only_nonempty_string_sets.2.2 "id" (by decide)

/-- C10: a field name absent from the registry has the empty allowed set, so
any criterion naming it is rejected with the UnsupportedCondition error
reporting an empty supported list, whatever its condition; and no successful
Serialize result ever contains an unregistered field. -/
theorem unknown_field_rejected :
    (∀ f c vs, f ∉ criteriaMapList.map Prod.fst →
      criteriaMap f = [] ∧
      serializeFindingCriteria [⟨f, c, vs⟩] =
        GoResult.err (SerErr.unsupportedCondition [])) ∧
    (∀ L fc, serializeFindingCriteria L = GoResult.ok fc →
      ∀ p ∈ fc, p.1 ∈ criteriaMapList.map Prod.fst) := by
  constructor
  · intro f c vs hf
    have hmap : criteriaMap f = [] := lookupConds_eq_nil criteriaMapList f hf
    refine ⟨hmap, ?_⟩
    have hbad : conditionAllowedForCriterion ⟨f, c, vs⟩ = false := by
      simp [conditionAllowedForCriterion, hmap]
    simp [serializeFindingCriteria, serializeLoop, processCriterion, hbad, hmap]
  · intro L fc h p hp
    have hkey : p.1 ∈ fc.map Prod.fst := List.mem_map.mpr ⟨p, hp, rfl⟩
    have hfield := (serializeLoop_ok_keys L [] fc h p.1).mp hkey
    simp only [List.map_nil, List.not_mem_nil, false_or] at hfield
    obtain ⟨crit, hcrit, hceq⟩ := List.mem_map.mp hfield
    have hall := serializeLoop_ok_allowed L [] fc h crit hcrit
    rw [conditionAllowed_iff] at hall
    by_contra hnot
    rw [← hceq] at hnot
    have hmap : criteriaMap crit.field = [] :=
      lookupConds_eq_nil criteriaMapList crit.field hnot
    rw [hmap] at hall
    exact List.not_mem_nil _ hall

/-- C10 (witness): the unknown-field rejection evaluated at a field name
outside the registry, and the no-unregistered-output fact evaluated on a
concrete successful input. -/
theorem unknown_field_rejected_witness :
    (criteriaMap "no_such_field" = [] ∧
      serializeFindingCriteria [⟨"no_such_field", Cond.equals, ["x"]⟩] =
        GoResult.err (SerErr.unsupportedCondition [])) ∧
    "id" ∈ criteriaMapList.map Prod.fst :=
  ⟨unknown_field_rejected.1 "no_such_field" Cond.equals ["x"] (by decide),
   unknown_field_rejected.2 [⟨"id", Cond.equals, ["a"]⟩] [("id", { Equals := ["a"] })]
     rfl ("id", { Equals := ["a"] }) (by simp)⟩

end GuardDuty
